import Mathlib

/-!
Verification of the eve-api-proxy request pipeline.

This file gives a shallow embedding, in Lean, of the parts of the
eve-api-proxy source that the specification talks about, and proves (or
refutes) the specification claims against that embedding:

* the generic rate limiter (`ratelimit` package: `run`, `runStart`,
  `runFinish`, `runExpire`, `countEvents`, `addEvent`);
* the request fingerprint (`apicache/request.go`: `Set`, `cacheTag`);
* the upstream client (`apicache/client.go` and its later revision:
  `Client.Do`, `SynthesizeAPIError`, the retry loop, the panic gate,
  the cache write-back deferred function);
* the bug-compensating handlers (`handlers.go`: `idsListHandler`,
  `findValidIDs`, `isValidIDList`, both revisions);
* the request loggers (`muxer.go` `logRequest`, `workers.go` `APIReq`).

Modelling conventions: machine integers are `Int`/`Nat`; `time.Time`
instants and `time.Duration` values are `Nat` (seconds or any fixed unit);
byte slices are `String`, with `Option String` when Go's `nil` slice must
be distinguished from an empty one; external collaborators (the SHA-1
library, the HTTP client, the XML parser, the clock formatter, the cache
store and the upstream oracle) are parameters of the embedded functions.
Functions defined in Go by unbounded loops are embedded with an explicit
fuel argument so that every definition is executable; the fuel is chosen
by the embedded callers exactly large enough that exhaustion is
unreachable.
-/

namespace EveApiProxy

/-! ## Rate limiter (ratelimit package)

The limiter state is owned by the single `run` loop task; all mutation is
serialized through it.  We model one serialized loop action per trace
event.  The Go `events` field is a `map[time.Time]struct{}`, i.e. a set of
expiry instants: we embed it as a `Finset Nat`.  The `expireEvents` timer
only decides *when* an expiry tick is delivered, so the model lets an
expiry tick occur at any instant: this is a superset of the behaviours of
the real timer, hence sound for the safety properties proved here.
-/

/-- State of one `RateLimit` (fields of the Go struct that the loop
mutates; `maxEvents` and `period` are the constructor arguments). -/
structure RLState where
  maxEvents : Nat
  period : Nat
  outstanding : Int
  events : Finset Nat
  activeStart : Bool
deriving DecidableEq

/-- `countEvents`' pruning: delete every event with `t.Before(now)`,
keep the rest.  (The Go function also re-arms the expiry timer, which the
trace model replaces by arbitrary expiry ticks.) -/
def pruneEvents (events : Finset Nat) (now : Nat) : Finset Nat :=
  events.filter (fun t => now ≤ t)

/-- `runStart`: count the raw (unpruned) event map as the source does via
`len(rl.events)`, increment `outstanding`, and stop listening on the start
channel when the sum reaches exactly `maxEvents`. -/
def runStart (s : RLState) : RLState :=
  let count := s.events.card
  let outstanding := s.outstanding + 1
  { s with
      outstanding := outstanding
      activeStart :=
        if outstanding + (count : Int) = (s.maxEvents : Int) then false
        else s.activeStart }

/-- `runFinish`: prune, optionally record a completion event expiring at
`now + period` (a map insert; the local counter is incremented even if the
key collides), decrement `outstanding`, and re-enable the start channel
when the sum drops below `maxEvents`. -/
def runFinish (s : RLState) (now : Nat) (skip : Bool) : RLState :=
  let events₁ := pruneEvents s.events now
  let count₁ := events₁.card
  if skip then
    let outstanding := s.outstanding - 1
    { s with
        events := events₁
        outstanding := outstanding
        activeStart :=
          if outstanding + (count₁ : Int) < (s.maxEvents : Int) then true
          else s.activeStart }
  else
    let events₂ := insert (now + s.period) events₁
    let count := count₁ + 1
    let active₁ := if s.maxEvents ≤ count then false else s.activeStart
    let outstanding := s.outstanding - 1
    { s with
        events := events₂
        outstanding := outstanding
        activeStart :=
          if outstanding + (count : Int) < (s.maxEvents : Int) then true
          else active₁ }

/-- `runExpire`: prune and re-enable the start channel when the sum is
below `maxEvents`. -/
def runExpire (s : RLState) (now : Nat) : RLState :=
  let events₁ := pruneEvents s.events now
  { s with
      events := events₁
      activeStart :=
        if s.outstanding + (events₁.card : Int) < (s.maxEvents : Int) then true
        else s.activeStart }

/-- One kind of loop action received by `run`. -/
inductive RLAction where
  | start
  | finish (skip : Bool)
  | expire
deriving DecidableEq

/-- A timestamped loop action. -/
structure RLEvent where
  time : Nat
  act : RLAction
deriving DecidableEq

/-- Dispatch of the `run` select loop. -/
def rlStep (s : RLState) (e : RLEvent) : RLState :=
  match e.act with
  | RLAction.start => runStart s
  | RLAction.finish skip => runFinish s e.time skip
  | RLAction.expire => runExpire s e.time

/-- Whether a loop action can occur: times are strictly increasing (the
clock readings of distinct loop iterations), a start is only received
while the loop listens on `activeStart`, and a finish presupposes a
started task (the documented usage contract: `Start` and `Finish` are
called exactly once by each task). -/
def rlAdmissible (s : RLState) (last : Nat) (e : RLEvent) : Bool :=
  decide (last < e.time) &&
    match e.act with
    | RLAction.start => s.activeStart
    | RLAction.finish _ => decide (1 ≤ s.outstanding)
    | RLAction.expire => true

/-- Run a list of loop actions from a state, failing if any of them is
inadmissible. -/
def rlRun : RLState → Nat → List RLEvent → Option (RLState × Nat)
  | s, last, [] => some (s, last)
  | s, last, e :: es =>
    if rlAdmissible s last e then rlRun (rlStep s e) e.time es else none

/-- `NewRateLimit`: empty event set, zero outstanding, start channel
active. -/
def initRL (maxEvents period : Nat) : RLState :=
  { maxEvents := maxEvents, period := period, outstanding := 0,
    events := ∅, activeStart := true }

/-- The times of the non-skipped finish actions of a trace. -/
def nonSkipFinishTimes : List RLEvent → List Nat
  | [] => []
  | e :: es =>
    (match e.act with
     | RLAction.finish false => [e.time]
     | _ => []) ++ nonSkipFinishTimes es

/-- Number of non-skipped finishes falling in the closed window
`[t, t + period]`. -/
def windowCount (fs : List Nat) (period t : Nat) : Nat :=
  (fs.filter (fun f => decide (t ≤ f ∧ f ≤ t + period))).length

/-- The inductive invariant of the limiter loop.  `hist` is the list of
non-skipped finish times so far, `last` the time of the latest action. -/
structure RLInv (s : RLState) (hist : List Nat) (last : Nat) : Prop where
  cap : s.outstanding + (s.events.card : Int) ≤ (s.maxEvents : Int)
  activeCap : s.activeStart = true →
    s.outstanding + (s.events.card : Int) < (s.maxEvents : Int)
  outNonneg : 0 ≤ s.outstanding
  histMem : ∀ f ∈ hist, last ≤ f + s.period → (f + s.period) ∈ s.events
  histLe : ∀ f ∈ hist, f ≤ last
  histNodup : hist.Nodup
  window : ∀ t, windowCount hist s.period t ≤ s.maxEvents

/-- The non-skipped finish times contributed by a single action. -/
def finishOf (e : RLEvent) : List Nat :=
  match e.act with
  | RLAction.finish false => [e.time]
  | _ => []

/-- A demonstration trace for the rate limiter: two tasks run in
sequence, each starting and then finishing without skip. -/
def rlDemoTrace : List RLEvent :=
  [⟨1, RLAction.start⟩, ⟨2, RLAction.finish false⟩,
   ⟨3, RLAction.start⟩, ⟨4, RLAction.finish false⟩]

/-- The limiter state reached by `rlDemoTrace` from `initRL 2 10`. -/
def rlDemoFinal : RLState :=
  { maxEvents := 2, period := 10, outstanding := 0,
    events := insert 14 (insert 12 ∅), activeStart := false }


/-! ## Upstream client (apicache package)

Two revisions of `Client.Do` exist in the repository: the vendored
`apicache/client.go` (revision A below) and the later stand-alone
package revision (revision B).  They differ in the retry loop (revision
B breaks out of the loop after a successful body read, revision A has no
break and always runs all `Retries` iterations) and in the TTL of the
synthesized internal-error body (15 minutes in revision A, 5 minutes in
revision B).  External collaborators are parameters of the model: the
result of the `cacher.Get` call, the outcome of each `PostForm` attempt,
the XML parse of a body, and the clock formatting used by the synthetic
error builder.  A single clock reading `now` stands for the times read
during the call.
-/

/-- `APIError`: upstream error code and text. -/
structure APIError where
  errorCode : Int
  errorText : String
deriving DecidableEq

/-- `Response`: what `Client.Do` returns.  `data = none` models a Go nil
byte slice. -/
structure Response where
  data : Option String
  fromCache : Bool
  expires : Nat
  invalidate : Bool
  error : APIError
  httpCode : Nat
deriving DecidableEq

/-- `SynthesizeAPIError` (errsynth.go): renders the canonical error
document.  `fmtTime` stands for the formatting of an instant in the
`sqlDateTime` layout; the Go code applies it to the current clock and to
the clock advanced by the requested TTL. -/
def SynthesizeAPIError (fmtTime : Nat → String) (now : Nat) (code : Int)
    (text : String) (expiresIn : Nat) : String :=
  "<eveapi version=\"2\">\n<currentTime>" ++ fmtTime now ++
    "</currentTime>\n<error code=\"" ++ toString code ++ "\">" ++ text ++
    "</error>\n<cachedUntil>" ++ fmtTime (now + expiresIn) ++
    "</cachedUntil>\n</eveapi>"

/-- Outcome of one `PostForm` attempt against the upstream: connection
failure, successful POST whose body read fails (or times out), or
successful POST and body read. -/
inductive Attempt where
  | connectFail
  | readFail (status : Nat)
  | readOk (status : Nat) (body : String)
deriving DecidableEq

/-- Whether an attempt counts as a transport failure. -/
def attemptFails : Attempt → Bool
  | Attempt.readOk _ _ => false
  | _ => true

/-- Result of parsing a body for `<error>` and `<cachedUntil>`. -/
inductive ParseOutcome where
  | xmlError
  | timeError
  | parsed (err : APIError) (cachedUntil : Nat)
deriving DecidableEq

/-- The sentinel errors `Client.Do` can hand to its deferred block. -/
inductive GoErr where
  | network
  | xml
  | time
deriving DecidableEq

/-- The `Error()` strings of the sentinel errors. -/
def goErrText : GoErr → String
  | GoErr.network => "Network error."
  | GoErr.xml => "Malformed XML Detected"
  | GoErr.time => "Malformed cache directive."

/-- Environment of one `Client.Do` call: request flags, cache lookup
result, clock, panic record, client configuration and external
collaborators. -/
structure DoEnv where
  force : Bool
  noCache : Bool
  reqExpires : Nat
  cached : Option (Nat × String × Nat)
  now : Nat
  panicUntil : Nat
  panicCode : Int
  panicReason : String
  retries : Nat
  attempts : Nat → Attempt
  parse : String → ParseOutcome
  fmtTime : Nat → String

/-- The mutable locals of the retry loop: `err`, `resp.HTTPCode`, the
`data` byte slice, and the number of POSTs performed so far. -/
structure LoopState where
  errored : Bool
  httpCode : Nat
  data : Option String
  posts : Nat
deriving DecidableEq

/-- Loop locals before the first iteration: `err` and `data` still hold
the results of the earlier `cacher.Get` call; `resp.HTTPCode` is zero. -/
def loopInit (env : DoEnv) : LoopState :=
  { errored := env.cached.isNone
    httpCode := 0
    data := env.cached.map (fun c => c.2.1)
    posts := 0 }

/-- One iteration body shared by both retry-loop revisions: POST
(counted), then either record the connect failure, or record the HTTP
status and the outcome of the body read. -/
def stepAttempt (env : DoEnv) (st : LoopState) (i : Nat) : LoopState :=
  match env.attempts i with
  | Attempt.connectFail =>
      { st with errored := true, posts := st.posts + 1 }
  | Attempt.readFail status =>
      { st with errored := true, httpCode := status, data := none,
                posts := st.posts + 1 }
  | Attempt.readOk status body =>
      { st with errored := false, httpCode := status, data := some body,
                posts := st.posts + 1 }

/-- Revision A retry loop (vendored client.go): `for tries < c.Retries`
with no `break`, so the loop runs all `Retries` iterations and POSTs
again even after a successful body read. -/
def loopA (env : DoEnv) : LoopState :=
  (List.range env.retries).foldl (fun st i => stepAttempt env st (i + 1))
    (loopInit env)

/-- Revision B retry loop body: identical to revision A except that a
successful body read breaks out of the loop.  `fuel` is the number of
remaining iterations (`Retries - tries`), `i` the 1-based attempt
number. -/
def loopBAux (env : DoEnv) : Nat → Nat → LoopState → LoopState
  | _, 0, st => st
  | i, fuel + 1, st =>
    match env.attempts i with
    | Attempt.readOk status body =>
        { st with errored := false, httpCode := status, data := some body,
                  posts := st.posts + 1 }
    | Attempt.connectFail =>
        loopBAux env (i + 1) fuel { st with errored := true, posts := st.posts + 1 }
    | Attempt.readFail status =>
        loopBAux env (i + 1) fuel
          { st with errored := true, httpCode := status, data := none,
                    posts := st.posts + 1 }

/-- Revision B retry loop. -/
def loopB (env : DoEnv) : LoopState :=
  loopBAux env 1 env.retries (loopInit env)

/-- What one `Client.Do` call did: the returned response, the internal
error, the number of upstream POSTs, the cache write performed by the
deferred block (if any), and the panic record written (if any). -/
structure DoResult where
  resp : Response
  err : Option GoErr
  posts : Nat
  stored : Option (Nat × String × Nat)
  panicSet : Option (Nat × Int × String)
deriving DecidableEq

/-- The deferred block of `Client.Do`: on an internal error overwrite
the response with a synthesized `code 500` body and HTTP 504 (`synthTTL`
is 15 minutes in revision A and 5 minutes in revision B); a nil body
without an error is replaced by a synthesized `code 900` body; finally
the response is written to the cache unless `NoCache`. -/
def applyDefer (env : DoEnv) (synthTTL : Nat) (resp : Response)
    (reterr : Option GoErr) : Response × Option (Nat × String × Nat) :=
  let resp :=
    match reterr with
    | some e =>
      { resp with
          httpCode := 504
          data := some (SynthesizeAPIError env.fmtTime env.now 500
            ("APIProxy Error: " ++ goErrText e) synthTTL) }
    | none =>
      if resp.data = none then
        { resp with
            httpCode := 504
            data := some (SynthesizeAPIError env.fmtTime env.now 900
              "This shouldn\x27t happen." (15 * 60)) }
      else resp
  (resp,
    if env.noCache then none
    else some (resp.httpCode, resp.data.getD "", resp.expires))

/-- The code after the retry loop, shared by both revisions: bail out
with `ErrNetwork` if the final `err` is set; otherwise parse the cache
directive (bailing with `ErrXML`/`ErrTime`), raise the expiry to the
floor requested by the caller, record the upstream error, enter panic
mode on codes 901..905, and set the invalidate bit.  The deferred block
runs at every return. -/
def afterLoop (env : DoEnv) (synthTTL : Nat) (st : LoopState) : DoResult :=
  let resp0 : Response :=
    { data := none, fromCache := false, expires := 0, invalidate := false,
      error := { errorCode := 0, errorText := "" }, httpCode := st.httpCode }
  if st.errored then
    let r := applyDefer env synthTTL resp0 (some GoErr.network)
    { resp := r.1, err := some GoErr.network, posts := st.posts,
      stored := r.2, panicSet := none }
  else
    match env.parse (st.data.getD "") with
    | ParseOutcome.xmlError =>
      let r := applyDefer env synthTTL resp0 (some GoErr.xml)
      { resp := r.1, err := some GoErr.xml, posts := st.posts,
        stored := r.2, panicSet := none }
    | ParseOutcome.timeError =>
      let r := applyDefer env synthTTL resp0 (some GoErr.time)
      { resp := r.1, err := some GoErr.time, posts := st.posts,
        stored := r.2, panicSet := none }
    | ParseOutcome.parsed apiErr cachedUntil =>
      let expires :=
        if cachedUntil < env.reqExpires then env.reqExpires else cachedUntil
      let resp1 : Response :=
        { data := st.data, fromCache := false, expires := expires,
          invalidate := decide (st.httpCode = 403 ∨
            (100 ≤ apiErr.errorCode ∧ apiErr.errorCode ≤ 299)),
          error := apiErr, httpCode := st.httpCode }
      let r := applyDefer env synthTTL resp1 none
      { resp := r.1, err := none, posts := st.posts, stored := r.2,
        panicSet :=
          if 901 ≤ apiErr.errorCode ∧ apiErr.errorCode ≤ 905 then
            some (expires, apiErr.errorCode, apiErr.errorText)
          else none }

/-- `Client.Do`: the cache fast path, then the panic gate, then the
retry loop and the parse stage.  Both the cache hit and the panic gate
return before the deferred cache write-back is installed. -/
def doCore (synthTTL : Nat) (loop : DoEnv → LoopState) (env : DoEnv) : DoResult :=
  let hit :=
    match env.cached with
    | some c => if ¬env.force ∧ ¬env.noCache then some c else none
    | none => none
  match hit with
  | some c =>
    { resp := { data := some c.2.1, fromCache := true, expires := c.2.2,
                invalidate := false,
                error := { errorCode := 0, errorText := "" },
                httpCode := c.1 },
      err := none, posts := 0, stored := none, panicSet := none }
  | none =>
    if env.now < env.panicUntil then
      { resp :=
          { data := some (SynthesizeAPIError env.fmtTime env.now env.panicCode
              env.panicReason (env.panicUntil - env.now)),
            fromCache := true, expires := env.panicUntil, invalidate := false,
            error := { errorCode := env.panicCode, errorText := env.panicReason },
            httpCode := 418 },
        err := none, posts := 0, stored := none, panicSet := none }
    else afterLoop env synthTTL (loop env)

/-- Revision A `Client.Do` (vendored client.go): no break in the retry
loop, 15-minute synthetic TTL. -/
def doA (env : DoEnv) : DoResult := doCore (15 * 60) loopA env

/-- Revision B `Client.Do` (later revision): break on success, 5-minute
synthetic TTL. -/
def doB (env : DoEnv) : DoResult := doCore (5 * 60) loopB env

/-- A concrete stand-in for the clock formatter. -/
def demoFmt : Nat → String := fun n => toString n

/-- Concrete environment: cache miss while the panic gate is active. -/
def envPanic : DoEnv :=
  { force := false, noCache := false, reqExpires := 0, cached := none,
    now := 100, panicUntil := 160, panicCode := 904, panicReason := "banned",
    retries := 3, attempts := fun _ => Attempt.connectFail,
    parse := fun _ => ParseOutcome.xmlError, fmtTime := demoFmt }

/-- Concrete environment: the first POST succeeds, later ones would
fail. -/
def envRetry : DoEnv :=
  { force := false, noCache := false, reqExpires := 0, cached := none,
    now := 100, panicUntil := 0, panicCode := 0, panicReason := "",
    retries := 3,
    attempts := fun i => if i = 1 then Attempt.readOk 200 "BODY" else Attempt.connectFail,
    parse := fun s =>
      if s = "BODY" then ParseOutcome.parsed { errorCode := 0, errorText := "" } 500
      else ParseOutcome.xmlError,
    fmtTime := demoFmt }

/-- Concrete environment: every POST fails with a transport error. -/
def envAllFail : DoEnv :=
  { force := false, noCache := false, reqExpires := 0, cached := none,
    now := 100, panicUntil := 0, panicCode := 0, panicReason := "",
    retries := 2, attempts := fun _ => Attempt.connectFail,
    parse := fun _ => ParseOutcome.xmlError, fmtTime := demoFmt }

/-- Concrete environment: the cache holds an entry stored with HTTP
status 403. -/
def envCached403 : DoEnv :=
  { force := false, noCache := false, reqExpires := 0,
    cached := some (403, "<eveapi>denied</eveapi>", 500),
    now := 100, panicUntil := 0, panicCode := 0, panicReason := "",
    retries := 3, attempts := fun _ => Attempt.connectFail,
    parse := fun _ => ParseOutcome.xmlError, fmtTime := demoFmt }

/-- Concrete environment: a successful POST parses to an upstream error
code inside [100, 299]. -/
def envParsed150 : DoEnv :=
  { force := false, noCache := false, reqExpires := 0, cached := none,
    now := 100, panicUntil := 0, panicCode := 0, panicReason := "",
    retries := 1,
    attempts := fun _ => Attempt.readOk 200 "P",
    parse := fun s =>
      if s = "P" then ParseOutcome.parsed { errorCode := 150, errorText := "e" } 500
      else ParseOutcome.xmlError,
    fmtTime := demoFmt }


/-! ## Request fingerprint (apicache/request.go)

Go strings are byte sequences; this section embeds them transparently as
`List Char` (`GoStr`) so that every definition evaluates inside the
kernel.  `strings.TrimSpace` and `strings.ToLower` are standard-library
collaborators, modelled on ASCII whitespace and ASCII case (the
parameter keys the proxy handles are ASCII).  The SHA-1 digest is
library code as well: it enters as a function parameter constrained to
produce 20 bytes, since `cacheTag` only depends on the byte stream fed
to it. -/

/-- A Go string, as its character sequence. -/
abbrev GoStr := List Char

/-- `strings.TrimSpace` (ASCII whitespace). -/
def trimSpace (s : GoStr) : GoStr :=
  ((s.dropWhile Char.isWhitespace).reverse.dropWhile Char.isWhitespace).reverse

/-- `strings.ToLower` (ASCII case). -/
def toLowerStr (s : GoStr) : GoStr := s.map Char.toLower

/-- The key normalization performed by `Request.Set`:
`strings.ToLower(strings.TrimSpace(key))`. -/
def goKey (k : GoStr) : GoStr := toLowerStr (trimSpace k)

/-- Assoc-list embedding of a Go map update `m[k] = v`: drop any entry
with the key, append the new one. -/
def mapSet (ps : List (GoStr × GoStr)) (k v : GoStr) : List (GoStr × GoStr) :=
  ps.filter (fun q => q.1 ≠ k) ++ [(k, v)]

/-- `Request.Set`: normalize the key, then store the value. -/
def setParam (ps : List (GoStr × GoStr)) (k v : GoStr) : List (GoStr × GoStr) :=
  mapSet ps (goKey k) v

/-- Go map lookup `m[k]` (built parameter lists have distinct keys). -/
def lookupKey : List (GoStr × GoStr) → GoStr → Option GoStr
  | [], _ => none
  | p :: rest, k => if p.1 = k then some p.2 else lookupKey rest k

/-- A request: its URL path and its parameter map. -/
structure GoRequest where
  url : GoStr
  params : List (GoStr × GoStr)
deriving DecidableEq

/-- A request built by `NewRequest(url)` followed by a sequence of `Set`
calls, in order. -/
def buildRequest (url : GoStr) (l : List (GoStr × GoStr)) : GoRequest :=
  { url := url, params := l.foldl (fun ps p => setParam ps p.1 p.2) [] }

/-- The map entry produced by one `Set` call. -/
def normPair (p : GoStr × GoStr) : GoStr × GoStr := (goKey p.1, p.2)

/-- The byte stream `cacheTag` feeds to the SHA-1 digest: one
`key: value\n` line per key in ascending order, then the URL with no
separator. -/
def cacheTagInput (r : GoRequest) : GoStr :=
  ((List.insertionSort (fun a b : GoStr => a ≤ b) (r.params.map Prod.fst)).map
    (fun k => k ++ ": ".data ++ (lookupKey r.params k).getD [] ++ "\n".data)).flatten
    ++ r.url

/-- Lowercase hexadecimal digit, as `%x` renders one. -/
def hexDigitChar (n : Nat) : Char :=
  if n < 10 then Char.ofNat (48 + n) else Char.ofNat (87 + n)

/-- `%x` of one byte: two hex digits. -/
def byteToHex (b : Nat) : GoStr :=
  [hexDigitChar (b / 16 % 16), hexDigitChar (b % 16)]

/-- `%x` of a byte sequence. -/
def hexOfBytes : List Nat → GoStr
  | [] => []
  | b :: bs => byteToHex b ++ hexOfBytes bs

/-- `Request.cacheTag`: hex rendering of the SHA-1 digest of
`cacheTagInput`. -/
def cacheTag (digest : GoStr → List Nat) (r : GoRequest) : GoStr :=
  hexOfBytes (digest (cacheTagInput r))

/-- A concrete stand-in digest satisfying the 20-byte contract. -/
def demoDigest : GoStr → List Nat := fun _ => List.replicate 20 0


/-! ## Bug-compensating handlers (handlers.go)

Two revisions of `idsListHandler` exist.  In the first, the fixer is
enabled by the presence of the `fix` parameter, which is deleted before
any call; in the second, `runFixer` is set to `true` unconditionally and
`fix` is never consulted or removed (the `if !runFixer` test is dead
code).  Both revisions of `findValidIDs` test `rightErr` right after the
*left* recursion, where `rightErr` is still nil, so an error returned by
the left recursion is dropped together with its ids.  `APIReq` is the
worker-pool round trip: it enters the model as an oracle from parameter
maps to responses; its error return is a flag (the handler only branches
on its presence).  The recursion of `findValidIDs` is embedded with a
fuel argument, set by the handler to `ids.length`, which the halving
recursion never exhausts. -/

/-- Go map delete. -/
def mapDelete (ps : List (GoStr × GoStr)) (k : GoStr) : List (GoStr × GoStr) :=
  ps.filter (fun q => q.1 ≠ k)

/-- `strings.Split(s, ",")`. -/
def splitCommaAux : List Char → List Char → List GoStr
  | [], acc => [acc.reverse]
  | c :: cs, acc =>
    if c = ',' then acc.reverse :: splitCommaAux cs [] else splitCommaAux cs (c :: acc)

def splitComma (s : GoStr) : List GoStr := splitCommaAux s []

/-- The comma join built by the handlers: `ids[0]` first, then `",%s"`
per further id.  Go indexes `ids[0]` before anything else, so an empty
list is an index-out-of-range runtime fault, modelled as `none`. -/
def joinIDs : List GoStr → Option GoStr
  | [] => none
  | x :: xs => some (x ++ (xs.map (fun y => ',' :: y)).flatten)

/-- The part of an `apicache.Response` the handlers consult. -/
structure OResp where
  errorCode : Int
  errorText : GoStr
  body : GoStr
deriving DecidableEq

/-- The oracle standing for `APIReq`: a response and the presence of an
internal error. -/
abbrev ApiOracle := List (GoStr × GoStr) → OResp × Bool

/-- Errors produced inside the repair algorithm. -/
inductive FixErr where
  | limit (n : Nat)
  | transport
  | api (code : Int) (text : GoStr)
deriving DecidableEq

/-- Result of `isValidIDList`: the validity flag, the error, the error
counter after the probe, the parameter maps of the upstream calls made,
and whether the Go code faulted at runtime (`ids[0]` on an empty list);
a fault unwinds through every caller. -/
structure ProbeOut where
  valid : Bool
  err : Option FixErr
  cnt : Nat
  calls : List (List (GoStr × GoStr))
  fault : Bool
deriving DecidableEq

/-- Result of `findValidIDs`; `fault` propagates a runtime fault of a
probe, which in Go is a panic that no caller in this file recovers. -/
structure FindOut where
  ids : List GoStr
  err : Option FixErr
  cnt : Nat
  calls : List (List (GoStr × GoStr))
  fault : Bool
deriving DecidableEq

/-- `isValidIDList`: refuse once the shared error counter has reached
`maxIDErrors = 16`; otherwise join the ids (faulting on an empty list,
before any upstream call, exactly where Go indexes `ids[0]`), probe
them, and treat code 0 as valid, code 135 as invalid (counted), anything
else as an aborting error. -/
def isValidIDList (api : ApiOracle) (params : List (GoStr × GoStr))
    (ids : List GoStr) (cnt : Nat) : ProbeOut :=
  if 16 ≤ cnt then
    { valid := false, err := some (FixErr.limit cnt), cnt := cnt, calls := [],
      fault := false }
  else
    match joinIDs ids with
    | none =>
      { valid := false, err := none, cnt := cnt, calls := [], fault := true }
    | some idsParam =>
      let newParams := mapSet params "ids".data idsParam
      let r := api newParams
      if r.2 then
        { valid := false, err := some FixErr.transport, cnt := cnt,
          calls := [newParams], fault := false }
      else if r.1.errorCode = 0 then
        { valid := true, err := none, cnt := cnt, calls := [newParams],
          fault := false }
      else if r.1.errorCode ≠ 135 then
        { valid := false, err := some (FixErr.api r.1.errorCode r.1.errorText),
          cnt := cnt, calls := [newParams], fault := false }
      else
        { valid := false, err := none, cnt := cnt + 1, calls := [newParams],
          fault := false }

/-- `findValidIDs`, first revision.  The left half is probed and, when
invalid and splittable, recursed into — but the source tests `rightErr`
(still nil) there, so the model keeps the ids of the left recursion (nil
on error) and drops its error, exactly as the Go code does; a runtime
fault, by contrast, unwinds immediately.  The right half propagates its
own error correctly. -/
def findValidIDs1 (api : ApiOracle) (params : List (GoStr × GoStr)) :
    Nat → List GoStr → Nat → FindOut
  | 0, _, cnt => { ids := [], err := none, cnt := cnt, calls := [], fault := false }
  | fuel + 1, ids, cnt =>
    let left := ids.take (ids.length / 2)
    let pl := isValidIDList api params left cnt
    if pl.fault then
      { ids := [], err := none, cnt := pl.cnt, calls := pl.calls, fault := true }
    else
      match pl.err with
      | some e =>
        { ids := [], err := some e, cnt := pl.cnt, calls := pl.calls, fault := false }
      | none =>
        let lf : FindOut :=
          if pl.valid then
            { ids := left, err := none, cnt := pl.cnt, calls := pl.calls,
              fault := false }
          else if 1 < left.length then
            let f := findValidIDs1 api params fuel left pl.cnt
            { ids := f.ids, err := none, cnt := f.cnt,
              calls := pl.calls ++ f.calls, fault := f.fault }
          else
            { ids := [], err := none, cnt := pl.cnt, calls := pl.calls,
              fault := false }
        if lf.fault then
          { ids := [], err := none, cnt := lf.cnt, calls := lf.calls, fault := true }
        else
          let right := ids.drop (ids.length / 2)
          let pr := isValidIDList api params right lf.cnt
          if pr.fault then
            { ids := [], err := none, cnt := pr.cnt,
              calls := lf.calls ++ pr.calls, fault := true }
          else
            match pr.err with
            | some e =>
              { ids := [], err := some e, cnt := pr.cnt,
                calls := lf.calls ++ pr.calls, fault := false }
            | none =>
              if pr.valid then
                { ids := lf.ids ++ right, err := none, cnt := pr.cnt,
                  calls := lf.calls ++ pr.calls, fault := false }
              else if 1 < right.length then
                let f := findValidIDs1 api params fuel right pr.cnt
                if f.fault then
                  { ids := [], err := none, cnt := f.cnt,
                    calls := lf.calls ++ pr.calls ++ f.calls, fault := true }
                else
                  match f.err with
                  | some e =>
                    { ids := [], err := some e, cnt := f.cnt,
                      calls := lf.calls ++ pr.calls ++ f.calls, fault := false }
                  | none =>
                    { ids := lf.ids ++ f.ids, err := none, cnt := f.cnt,
                      calls := lf.calls ++ pr.calls ++ f.calls, fault := false }
              else
                { ids := lf.ids, err := none, cnt := pr.cnt,
                  calls := lf.calls ++ pr.calls, fault := false }

/-- `findValidIDs`, second revision: identical except for an additional
error-counter check at entry.  The `rightErr` shadowing after the left
recursion is present here as well. -/
def findValidIDs2 (api : ApiOracle) (params : List (GoStr × GoStr)) :
    Nat → List GoStr → Nat → FindOut
  | 0, _, cnt => { ids := [], err := none, cnt := cnt, calls := [], fault := false }
  | fuel + 1, ids, cnt =>
    if 16 ≤ cnt then
      { ids := [], err := some (FixErr.limit cnt), cnt := cnt, calls := [],
        fault := false }
    else
      let left := ids.take (ids.length / 2)
      let pl := isValidIDList api params left cnt
      if pl.fault then
        { ids := [], err := none, cnt := pl.cnt, calls := pl.calls, fault := true }
      else
        match pl.err with
        | some e =>
          { ids := [], err := some e, cnt := pl.cnt, calls := pl.calls,
            fault := false }
        | none =>
          let lf : FindOut :=
            if pl.valid then
              { ids := left, err := none, cnt := pl.cnt, calls := pl.calls,
                fault := false }
            else if 1 < left.length then
              let f := findValidIDs2 api params fuel left pl.cnt
              { ids := f.ids, err := none, cnt := f.cnt,
                calls := pl.calls ++ f.calls, fault := f.fault }
            else
              { ids := [], err := none, cnt := pl.cnt, calls := pl.calls,
                fault := false }
          if lf.fault then
            { ids := [], err := none, cnt := lf.cnt, calls := lf.calls,
              fault := true }
          else
            let right := ids.drop (ids.length / 2)
            let pr := isValidIDList api params right lf.cnt
            if pr.fault then
              { ids := [], err := none, cnt := pr.cnt,
                calls := lf.calls ++ pr.calls, fault := true }
            else
              match pr.err with
              | some e =>
                { ids := [], err := some e, cnt := pr.cnt,
                  calls := lf.calls ++ pr.calls, fault := false }
              | none =>
                if pr.valid then
                  { ids := lf.ids ++ right, err := none, cnt := pr.cnt,
                    calls := lf.calls ++ pr.calls, fault := false }
                else if 1 < right.length then
                  let f := findValidIDs2 api params fuel right pr.cnt
                  if f.fault then
                    { ids := [], err := none, cnt := f.cnt,
                      calls := lf.calls ++ pr.calls ++ f.calls, fault := true }
                  else
                    match f.err with
                    | some e =>
                      { ids := [], err := some e, cnt := f.cnt,
                        calls := lf.calls ++ pr.calls ++ f.calls, fault := false }
                    | none =>
                      { ids := lf.ids ++ f.ids, err := none, cnt := f.cnt,
                        calls := lf.calls ++ pr.calls ++ f.calls, fault := false }
                else
                  { ids := lf.ids, err := none, cnt := pr.cnt,
                    calls := lf.calls ++ pr.calls, fault := false }

/-- The id list of a request: the comma-split `ids` parameter, or nil
when absent. -/
def handlerIDs (ps : List (GoStr × GoStr)) : List GoStr :=
  match lookupKey ps "ids".data with
  | some s => splitComma s
  | none => []

/-- `idsListHandler`, first revision: the fixer is opt-in through the
`fix` parameter, which is removed from the map before the first call.
The response is `none` when the Go code faults at runtime: a fault
inside a probe unwinds, and when `findValidIDs` returns an empty subset
with a nil error the handler itself faults at `validIDs[0]` before
making its re-issue call. -/
def idsListHandler1 (api : ApiOracle) (params : List (GoStr × GoStr)) :
    Option OResp × List (List (GoStr × GoStr)) :=
  let fixPresent := (lookupKey params "fix".data).isSome
  let params1 := if fixPresent then mapDelete params "fix".data else params
  let resp := (api params1).1
  if ¬fixPresent then (some resp, [params1])
  else
    let ids := handlerIDs params1
    if ids.length = 0 ∨ ids.length = 1 ∨ 250 < ids.length then (some resp, [params1])
    else if resp.errorCode ≠ 135 then (some resp, [params1])
    else
      let params2 := mapDelete params1 "ids".data
      let f := findValidIDs1 api params2 ids.length ids 0
      if f.fault then (none, [params1] ++ f.calls)
      else
        match f.err with
        | some _ => (some resp, [params1] ++ f.calls)
        | none =>
          match joinIDs f.ids with
          | none => (none, [params1] ++ f.calls)
          | some idsParam =>
            let params3 := mapSet params2 "ids".data idsParam
            (some (api params3).1, [params1] ++ f.calls ++ [params3])

/-- `idsListHandler`, second revision: `runFixer` is hard-coded to
`true` and the `fix` parameter is never consulted or removed.  Runtime
faults are `none` exactly as in the first revision. -/
def idsListHandler2 (api : ApiOracle) (params : List (GoStr × GoStr)) :
    Option OResp × List (List (GoStr × GoStr)) :=
  let resp := (api params).1
  let ids := handlerIDs params
  if ids.length = 0 ∨ ids.length = 1 ∨ 250 < ids.length then (some resp, [params])
  else if resp.errorCode ≠ 135 then (some resp, [params])
  else
    let params2 := mapDelete params "ids".data
    let f := findValidIDs2 api params2 ids.length ids 0
    if f.fault then (none, [params] ++ f.calls)
    else
      match f.err with
      | some _ => (some resp, [params] ++ f.calls)
      | none =>
        match joinIDs f.ids with
        | none => (none, [params] ++ f.calls)
        | some idsParam =>
          let params3 := mapSet params2 "ids".data idsParam
          (some (api params3).1, [params] ++ f.calls ++ [params3])

/-- Oracle for the repair scenarios: probing `1,2,3,4` or `1,2` reports
the invalid-id error 135, probing `1` alone fails with error 320, and
probing `3,4` succeeds. -/
def apiC9 : ApiOracle := fun ps =>
  match lookupKey ps "ids".data with
  | some s =>
    if s = "1,2,3,4".data then
      ({ errorCode := 135, errorText := [], body := "E135".data }, false)
    else if s = "1,2".data then
      ({ errorCode := 135, errorText := [], body := "E135".data }, false)
    else if s = "1".data then
      ({ errorCode := 320, errorText := "backend".data, body := "E320".data }, false)
    else if s = "3,4".data then
      ({ errorCode := 0, errorText := [], body := "OK34".data }, false)
    else ({ errorCode := 0, errorText := [], body := "OK".data }, false)
  | none => ({ errorCode := 0, errorText := [], body := "NOIDS".data }, false)

/-- Oracle for the second-revision handler counterexample: every call
reports error 135. -/
def apiAll135 : ApiOracle := fun _ =>
  ({ errorCode := 135, errorText := [], body := "E".data }, false)

/-- Oracle whose calls all succeed with error code 0. -/
def apiAll0 : ApiOracle := fun _ =>
  ({ errorCode := 0, errorText := [], body := "OK".data }, false)

/-- Parameter map without `fix`, with `ids=1,2`. -/
def paramsNoFix : List (GoStr × GoStr) := [("ids".data, "1,2".data)]

/-- Parameter map with `fix=yes` and `ids=1,2`. -/
def paramsWithFix : List (GoStr × GoStr) :=
  [("ids".data, "1,2".data), ("fix".data, "yes".data)]


/-! ## Request loggers (muxer.go logRequest, workers.go APIReq)

`logRequest` censors the `vcode` parameter with `params[k][0:8]`, an
unguarded byte-slice: Go raises a slice-bounds-out-of-range runtime
error when the value is shorter than 8 bytes.  The debug logger inside
`APIReq` guards the same slice with `len(params[k]) > 8`.  Go string
slicing is modelled as an `Option`, `none` standing for the runtime
fault. -/

/-- Go string slicing `s[lo:hi]`: defined when `lo ≤ hi ≤ len(s)`,
a runtime fault (`none`) otherwise. -/
def goStringSlice (s : GoStr) (lo hi : Nat) : Option GoStr :=
  if lo ≤ hi ∧ hi ≤ s.length then some ((s.drop lo).take (hi - lo)) else none

/-- The censored parameter value computed by `logRequest` (muxer.go):
`params[k][0:8] + "..."` with no length guard. -/
def logRequestParamVal (censorLog : Bool) (k v : GoStr) : Option GoStr :=
  if censorLog ∧ toLowerStr k = "vcode".data then
    (goStringSlice v 0 8).map (fun p => p ++ "...".data)
  else some v

/-- The censored parameter value computed by the debug logger in
`APIReq` (workers.go): the same slice guarded by `len(params[k]) > 8`. -/
def apiReqParamVal (censorLog : Bool) (k v : GoStr) : Option GoStr :=
  if censorLog ∧ toLowerStr k = "vcode".data ∧ 8 < v.length then
    (goStringSlice v 0 8).map (fun p => p ++ "...".data)
  else some v

/-! ## Theorems about the rate limiter -/

theorem pruneEvents_card_le (events : Finset Nat) (now : Nat) :
    (pruneEvents events now).card ≤ events.card :=
  Finset.card_filter_le _ _

theorem rlStep_maxEvents (s : RLState) (e : RLEvent) :
    (rlStep s e).maxEvents = s.maxEvents := by
  cases e with
  | mk t a =>
    cases a <;> simp [rlStep, runStart, runFinish, runExpire]
    case finish skip => cases skip <;> simp

theorem rlStep_period (s : RLState) (e : RLEvent) :
    (rlStep s e).period = s.period := by
  cases e with
  | mk t a =>
    cases a <;> simp [rlStep, runStart, runFinish, runExpire]
    case finish skip => cases skip <;> simp

theorem nonSkipFinishTimes_cons (e : RLEvent) (es : List RLEvent) :
    nonSkipFinishTimes (e :: es) = finishOf e ++ nonSkipFinishTimes es := rfl

/-- Any window's worth of recorded finishes is still present, after
pruning at a later instant `t` that the window reaches, as live events. -/
theorem windowCount_le_pruned {s : RLState} {hist : List Nat} {last : Nat}
    (inv : RLInv s hist last) {t u : Nat}
    (hlt : last < t) (hle : t ≤ u + s.period) :
    windowCount hist s.period u ≤ (pruneEvents s.events t).card := by
  classical
  set l := hist.filter (fun f => decide (u ≤ f ∧ f ≤ u + s.period)) with hl
  have hnd : l.Nodup := inv.histNodup.filter _
  have hsub : l.toFinset.image (fun f => f + s.period) ⊆ pruneEvents s.events t := by
    intro x hx
    simp only [Finset.mem_image, List.mem_toFinset] at hx
    obtain ⟨f, hf, rfl⟩ := hx
    rw [hl, List.mem_filter] at hf
    obtain ⟨hfh, hq⟩ := hf
    have hq' : u ≤ f ∧ f ≤ u + s.period := of_decide_eq_true hq
    have hmem : f + s.period ∈ s.events := inv.histMem f hfh (by omega)
    simp only [pruneEvents, Finset.mem_filter]
    exact ⟨hmem, by omega⟩
  have hinj : Function.Injective (fun f => f + s.period) := by
    intro x y hxy
    simpa using hxy
  have hcard := Finset.card_le_card hsub
  rw [Finset.card_image_of_injective _ hinj, List.toFinset_card_of_nodup hnd] at hcard
  exact hcard

/-- Invariant preservation: admitted start. -/
theorem rlInv_start {s : RLState} {hist : List Nat} {last : Nat}
    (inv : RLInv s hist last) {t : Nat}
    (hlt : last < t) (hact : s.activeStart = true) :
    RLInv (runStart s) hist t := by
  have hcap := inv.activeCap hact
  constructor
  · simp [runStart]
    omega
  · simp [runStart]
    intro h1 h2
    omega
  · simp [runStart]
    have := inv.outNonneg
    omega
  · simp [runStart]
    intro f hf hfp
    exact inv.histMem f hf (by omega)
  · intro f hf
    have := inv.histLe f hf
    omega
  · exact inv.histNodup
  · simp [runStart]
    exact inv.window

/-- Invariant preservation: expiry tick. -/
theorem rlInv_expire {s : RLState} {hist : List Nat} {last : Nat}
    (inv : RLInv s hist last) {t : Nat} (hlt : last < t) :
    RLInv (runExpire s t) hist t := by
  have hprune := pruneEvents_card_le s.events t
  have hcap := inv.cap
  constructor
  · simp [runExpire]
    omega
  · simp [runExpire]
    intro h
    rcases h with h | h
    · omega
    · have := inv.activeCap h
      omega
  · simp [runExpire]
    exact inv.outNonneg
  · simp [runExpire]
    intro f hf hfp
    have hmem : f + s.period ∈ s.events := inv.histMem f hf (by omega)
    simp only [pruneEvents, Finset.mem_filter]
    exact ⟨hmem, by omega⟩
  · intro f hf
    have := inv.histLe f hf
    omega
  · exact inv.histNodup
  · simp [runExpire]
    exact inv.window

/-- Invariant preservation: skipped finish. -/
theorem rlInv_finish_skip {s : RLState} {hist : List Nat} {last : Nat}
    (inv : RLInv s hist last) {t : Nat}
    (hlt : last < t) (hout : 1 ≤ s.outstanding) :
    RLInv (runFinish s t true) hist t := by
  have hprune := pruneEvents_card_le s.events t
  have hcap := inv.cap
  constructor
  · simp [runFinish]
    omega
  · simp [runFinish]
    intro h
    rcases h with h | h
    · omega
    · have := inv.activeCap h
      omega
  · simp [runFinish]
    omega
  · simp [runFinish]
    intro f hf hfp
    have hmem : f + s.period ∈ s.events := inv.histMem f hf (by omega)
    simp only [pruneEvents, Finset.mem_filter]
    exact ⟨hmem, by omega⟩
  · intro f hf
    have := inv.histLe f hf
    omega
  · exact inv.histNodup
  · simp [runFinish]
    exact inv.window

/-- Invariant preservation: counted (non-skipped) finish. -/
theorem rlInv_finish_count {s : RLState} {hist : List Nat} {last : Nat}
    (inv : RLInv s hist last) {t : Nat}
    (hlt : last < t) (hout : 1 ≤ s.outstanding) :
    RLInv (runFinish s t false) (hist ++ [t]) t := by
  have hprune := pruneEvents_card_le s.events t
  have hcap := inv.cap
  have hins : (insert (t + s.period) (pruneEvents s.events t)).card ≤
      (pruneEvents s.events t).card + 1 := Finset.card_insert_le _ _
  constructor
  · simp [runFinish]
    omega
  · simp [runFinish]
    intro h
    rcases h with h | ⟨h1, h2⟩
    · omega
    · have := inv.activeCap h2
      omega
  · simp [runFinish]
    omega
  · have hev : (runFinish s t false).events =
        insert (t + s.period) (pruneEvents s.events t) := by
      simp [runFinish]
    have hper : (runFinish s t false).period = s.period := by
      simp [runFinish]
    rw [hev, hper]
    intro f hf hfp
    rcases List.mem_append.1 hf with hf | hf
    · have hmem : f + s.period ∈ s.events := inv.histMem f hf (by omega)
      apply Finset.mem_insert_of_mem
      simp only [pruneEvents, Finset.mem_filter]
      exact ⟨hmem, by omega⟩
    · have : f = t := by simpa using hf
      subst this
      exact Finset.mem_insert_self _ _
  · intro f hf
    rcases List.mem_append.1 hf with hf | hf
    · have := inv.histLe f hf
      omega
    · have : f = t := by simpa using hf
      omega
  · refine inv.histNodup.append (List.nodup_singleton t) ?_
    intro a ha hat
    have h1 := inv.histLe a ha
    have h2 : a = t := by simpa using hat
    omega
  · simp [runFinish]
    intro u
    have hsplit : windowCount (hist ++ [t]) s.period u =
        windowCount hist s.period u +
          (List.filter (fun f => decide (u ≤ f ∧ f ≤ u + s.period)) [t]).length := by
      simp [windowCount, List.filter_append]
    rw [hsplit]
    by_cases hq : u ≤ t ∧ t ≤ u + s.period
    · have hwin := windowCount_le_pruned inv hlt hq.2
      have hfil : (List.filter (fun f => decide (u ≤ f ∧ f ≤ u + s.period)) [t]).length ≤ 1 := by
        simp [List.filter]
        split <;> simp
      omega
    · have hfil : (List.filter (fun f => decide (u ≤ f ∧ f ≤ u + s.period)) [t]).length = 0 := by
        simp [List.filter, hq]
      rw [hfil]
      have := inv.window u
      omega

/-- Invariant preservation for one admissible loop action. -/
theorem rlInv_step {s : RLState} {hist : List Nat} {last : Nat} {e : RLEvent}
    (inv : RLInv s hist last) (hadm : rlAdmissible s last e = true) :
    RLInv (rlStep s e) (hist ++ finishOf e) e.time := by
  obtain ⟨t, a⟩ := e
  simp only [rlAdmissible, Bool.and_eq_true, decide_eq_true_eq] at hadm
  obtain ⟨hlt, ha⟩ := hadm
  cases a with
  | start =>
    simpa [rlStep, finishOf] using rlInv_start inv hlt ha
  | finish skip =>
    have hout : 1 ≤ s.outstanding := by
      simpa using ha
    cases skip with
    | false => simpa [rlStep, finishOf] using rlInv_finish_count inv hlt hout
    | true => simpa [rlStep, finishOf] using rlInv_finish_skip inv hlt hout
  | expire =>
    simpa [rlStep, finishOf] using rlInv_expire inv hlt

/-- The invariant holds after any admissible run, and the run preserves
the constructor parameters. -/
theorem rlRun_inv :
    ∀ (evs : List RLEvent) (s : RLState) (last : Nat) (hist : List Nat)
      (s' : RLState) (last' : Nat),
      RLInv s hist last → rlRun s last evs = some (s', last') →
      RLInv s' (hist ++ nonSkipFinishTimes evs) last' ∧
        s'.maxEvents = s.maxEvents ∧ s'.period = s.period := by
  intro evs
  induction evs with
  | nil =>
    intro s last hist s' last' inv hrun
    simp only [rlRun, Option.some_inj, Prod.mk.injEq] at hrun
    obtain ⟨rfl, rfl⟩ := hrun
    simpa [nonSkipFinishTimes] using inv
  | cons e es ih =>
    intro s last hist s' last' inv hrun
    simp only [rlRun] at hrun
    split at hrun
    · rename_i hadm
      have h1 := rlInv_step inv hadm
      have h2 := ih (rlStep s e) e.time (hist ++ finishOf e) s' last' h1 hrun
      refine ⟨?_, ?_, ?_⟩
      · rw [nonSkipFinishTimes_cons, ← List.append_assoc]
        exact h2.1
      · rw [h2.2.1, rlStep_maxEvents]
      · rw [h2.2.2, rlStep_period]
    · exact absurd hrun (by simp)

/-- The invariant holds at creation, for `maxEvents ≥ 1`. -/
theorem rlInv_init (M p : Nat) (hM : 1 ≤ M) : RLInv (initRL M p) [] 0 := by
  constructor <;> simp [initRL, windowCount]
  omega

/-- C1: for every rate limiter created with `(max_events, period)`
(`max_events ≥ 1`, as in every in-repo configuration) and every
admissible serialized trace of the `run` loop, (a) at every externally
observable moment the number of in-flight admitted tasks plus the number
of unexpired completion events is at most `max_events`, and (b) across
any sliding window of length `period`, the number of non-skipped
`finish` calls counted by the limiter is at most `max_events`. -/
theorem claim1_ratelimit_cap_and_window (M p : Nat) (hM : 1 ≤ M)
    (evs : List RLEvent) (s' : RLState) (last' : Nat)
    (hrun : rlRun (initRL M p) 0 evs = some (s', last')) :
    (∀ now : Nat,
      s'.outstanding + ((pruneEvents s'.events now).card : Int) ≤ (M : Int)) ∧
    (∀ t : Nat, windowCount (nonSkipFinishTimes evs) p t ≤ M) := by
  obtain ⟨inv, hmax, hper⟩ :=
    rlRun_inv evs (initRL M p) 0 [] s' last' (rlInv_init M p hM) hrun
  have hM' : s'.maxEvents = M := by simpa [initRL] using hmax
  have hp' : s'.period = p := by simpa [initRL] using hper
  constructor
  · intro now
    have hc := inv.cap
    have hp := pruneEvents_card_le s'.events now
    rw [hM'] at hc
    omega
  · intro t
    have hw := inv.window t
    rw [hM', hp'] at hw
    simpa using hw

/-- Witness for C1: the cap and the window bound, evaluated on the
concrete demonstration trace. -/
theorem claim1_ratelimit_witness :
    rlDemoFinal.outstanding + ((pruneEvents rlDemoFinal.events 5).card : Int) ≤ ((2 : Nat) : Int) ∧
    windowCount (nonSkipFinishTimes rlDemoTrace) 10 0 ≤ 2 :=
  ⟨(claim1_ratelimit_cap_and_window 2 10 (by decide) rlDemoTrace rlDemoFinal 4
      (by decide)).1 5,
   (claim1_ratelimit_cap_and_window 2 10 (by decide) rlDemoTrace rlDemoFinal 4
      (by decide)).2 0⟩


/-! ## Theorems about the upstream client -/

/-- Both revisions reduce to the panic response when the cache does not
serve the request and the panic record is live. -/
theorem doCore_panic (synthTTL : Nat) (loop : DoEnv → LoopState) (env : DoEnv)
    (hnc : env.cached = none ∨ env.force = true ∨ env.noCache = true)
    (hp : env.now < env.panicUntil) :
    doCore synthTTL loop env =
      { resp :=
          { data := some (SynthesizeAPIError env.fmtTime env.now env.panicCode
              env.panicReason (env.panicUntil - env.now)),
            fromCache := true, expires := env.panicUntil, invalidate := false,
            error := { errorCode := env.panicCode, errorText := env.panicReason },
            httpCode := 418 },
        err := none, posts := 0, stored := none, panicSet := none } := by
  unfold doCore
  rcases hnc with h | h | h <;> cases hc : env.cached <;> simp_all [hp]

/-- Both revisions reduce to the post-loop stage when the cache does not
serve the request and the panic record has expired. -/
theorem doCore_miss (synthTTL : Nat) (loop : DoEnv → LoopState) (env : DoEnv)
    (hnc : env.cached = none ∨ env.force = true ∨ env.noCache = true)
    (hp : ¬ env.now < env.panicUntil) :
    doCore synthTTL loop env = afterLoop env synthTTL (loop env) := by
  unfold doCore
  rcases hnc with h | h | h <;> cases hc : env.cached <;> simp_all [hp]

/-- C2: while the panic state is active and the request is not served
from the cache, both revisions of `Client.Do` return HTTP status 418,
`FromCache = true`, `Expires = panicUntil`, the panic code and reason as
the upstream error, a body synthesized for
`(panicCode, panicReason, panicUntil - now)`, and perform no POST. -/
theorem claim2_panic_response (env : DoEnv)
    (hnc : env.cached = none ∨ env.force = true ∨ env.noCache = true)
    (hp : env.now < env.panicUntil) :
    ((doA env).resp.httpCode = 418 ∧ (doA env).resp.fromCache = true ∧
     (doA env).resp.expires = env.panicUntil ∧
     (doA env).resp.error =
       { errorCode := env.panicCode, errorText := env.panicReason } ∧
     (doA env).resp.data = some (SynthesizeAPIError env.fmtTime env.now
       env.panicCode env.panicReason (env.panicUntil - env.now)) ∧
     (doA env).posts = 0) ∧
    ((doB env).resp.httpCode = 418 ∧ (doB env).resp.fromCache = true ∧
     (doB env).resp.expires = env.panicUntil ∧
     (doB env).resp.error =
       { errorCode := env.panicCode, errorText := env.panicReason } ∧
     (doB env).resp.data = some (SynthesizeAPIError env.fmtTime env.now
       env.panicCode env.panicReason (env.panicUntil - env.now)) ∧
     (doB env).posts = 0) := by
  have hA := doCore_panic (15 * 60) loopA env hnc hp
  have hB := doCore_panic (5 * 60) loopB env hnc hp
  unfold doA doB
  rw [hA, hB]
  simp

/-- Witness for C2 at the concrete panic environment. -/
theorem claim2_panic_response_witness :
    (doA envPanic).resp.httpCode = 418 ∧
    (doA envPanic).resp.expires = 160 ∧ (doA envPanic).posts = 0 :=
  ⟨((claim2_panic_response envPanic (Or.inl rfl) (by decide)).1).1,
   (((claim2_panic_response envPanic (Or.inl rfl) (by decide)).1).2.2).1,
   ((claim2_panic_response envPanic (Or.inl rfl) (by decide)).1).2.2.2.2.2⟩

/-- C3 counterexample: the panic short circuit performs no cache write,
even though the request allows caching (`NoCache = false`), because both
revisions return before the cache write-back defer is installed. -/
theorem claim3_counterexample :
    envPanic.noCache = false ∧ envPanic.cached = none ∧
    envPanic.now < envPanic.panicUntil ∧
    (doA envPanic).stored = none ∧ (doB envPanic).stored = none := by
  refine ⟨rfl, rfl, by decide, ?_, ?_⟩ <;> decide

/-- C3 (amended): the synthesized panic body is never written to the
cache; the store defer is installed only after the panic gate has
already returned. -/
theorem claim3_panic_not_cached (env : DoEnv)
    (hnc : env.cached = none ∨ env.force = true ∨ env.noCache = true)
    (hp : env.now < env.panicUntil) :
    (doA env).stored = none ∧ (doB env).stored = none := by
  have hA := doCore_panic (15 * 60) loopA env hnc hp
  have hB := doCore_panic (5 * 60) loopB env hnc hp
  unfold doA doB
  rw [hA, hB]
  exact ⟨rfl, rfl⟩

/-- Witness for the amended C3 at the concrete panic environment. -/
theorem claim3_panic_not_cached_witness :
    (doA envPanic).stored = none ∧ (doB envPanic).stored = none :=
  claim3_panic_not_cached envPanic (Or.inl rfl) (by decide)

/-- C4: evaluation at an input whose first attempt succeeds.  Revision B
stops at the first successful body read (one POST, the read body is
returned).  Revision A keeps POSTing until `tries = Retries`, throwing
the earlier success away: three POSTs, and the connection failures of
the later attempts turn the whole call into a synthesized 504.  The
later revision marks the missing `break` with a
"WARNING MAJOR REGRESSION" log line. -/
theorem claim4_retry_regression :
    (doB envRetry).posts = 1 ∧ (doB envRetry).err = none ∧
    (doB envRetry).resp.data = some "BODY" ∧
    (doA envRetry).posts = 3 ∧ (doA envRetry).err = some GoErr.network ∧
    (doA envRetry).resp.httpCode = 504 := by
  refine ⟨?_, ?_, ?_, ?_, ?_, ?_⟩ <;> decide

/-- In revision B, an attempt is only followed by another POST when it
failed, and at most `fuel` POSTs happen from any loop state. -/
theorem loopBAux_posts_le (env : DoEnv) :
    ∀ (fuel i : Nat) (st : LoopState),
      (loopBAux env i fuel st).posts ≤ st.posts + fuel := by
  intro fuel
  induction fuel with
  | zero => intro i st; simp [loopBAux]
  | succ n ih =>
    intro i st
    unfold loopBAux
    cases hatt : env.attempts i <;> simp only [hatt]
    · have h := ih (i + 1) { st with errored := true, posts := st.posts + 1 }
      simp at h ⊢
      omega
    · rename_i status
      have h := ih (i + 1)
        { st with errored := true, httpCode := status, data := none,
                  posts := st.posts + 1 }
      simp at h ⊢
      omega
    · simp

/-- In revision B a successful body read ends the loop at once. -/
theorem loopBAux_stop_on_success (env : DoEnv) (fuel i : Nat) (st : LoopState)
    (status : Nat) (body : String)
    (h : env.attempts i = Attempt.readOk status body) :
    loopBAux env i (fuel + 1) st =
      { st with errored := false, httpCode := status, data := some body,
                posts := st.posts + 1 } := by
  unfold loopBAux
  rw [h]

/-- If every attempt within the fuel budget fails, revision B ends
errored. -/
theorem loopBAux_all_fail (env : DoEnv) :
    ∀ (fuel i : Nat) (st : LoopState), 1 ≤ fuel →
      (∀ j, i ≤ j → j < i + fuel → attemptFails (env.attempts j) = true) →
      (loopBAux env i fuel st).errored = true := by
  intro fuel
  induction fuel with
  | zero => intro i st h; omega
  | succ n ih =>
    intro i st _ hfail
    unfold loopBAux
    cases hatt : env.attempts i with
    | readOk status body =>
      have := hfail i (le_refl i) (by omega)
      rw [hatt] at this
      simp [attemptFails] at this
    | connectFail =>
      cases n with
      | zero => simp [loopBAux]
      | succ m =>
        exact ih (i + 1) _ (by omega) (fun j h1 h2 => hfail j (by omega) (by omega))
    | readFail status =>
      cases n with
      | zero => simp [loopBAux]
      | succ m =>
        exact ih (i + 1) _ (by omega) (fun j h1 h2 => hfail j (by omega) (by omega))

/-- The retry loop of revision B ends errored when every attempt fails. -/
theorem loopB_all_fail (env : DoEnv) (hr : 1 ≤ env.retries)
    (hfail : ∀ i, i < env.retries → attemptFails (env.attempts (i + 1)) = true) :
    (loopB env).errored = true := by
  unfold loopB
  exact loopBAux_all_fail env env.retries 1 (loopInit env) hr
    (fun j h1 h2 => by
      have : j = (j - 1) + 1 := by omega
      rw [this]
      exact hfail (j - 1) (by omega))

/-- The post-loop stage on a transport failure: HTTP 504, synthesized
`code 500` body with the configured TTL, network error. -/
theorem afterLoop_errored (env : DoEnv) (synthTTL : Nat) (st : LoopState)
    (h : st.errored = true) :
    afterLoop env synthTTL st =
      { resp :=
          { data := some (SynthesizeAPIError env.fmtTime env.now 500
              "APIProxy Error: Network error." synthTTL),
            fromCache := false, expires := 0, invalidate := false,
            error := { errorCode := 0, errorText := "" }, httpCode := 504 },
        err := some GoErr.network, posts := st.posts,
        stored :=
          if env.noCache then none
          else some (504, SynthesizeAPIError env.fmtTime env.now 500
            "APIProxy Error: Network error." synthTTL, 0),
        panicSet := none } := by
  simp [afterLoop, h, applyDefer, goErrText]

/-- Every branch of both revisions returns a non-nil body. -/
theorem do_data_ne_none (synthTTL : Nat) (loop : DoEnv → LoopState) (env : DoEnv) :
    (doCore synthTTL loop env).resp.data ≠ none := by
  unfold doCore afterLoop applyDefer
  cases env.cached <;> simp <;> repeat' split <;> simp_all

/-- C5: when every POST attempt fails with a transport error, revision B
returns HTTP 504 with a body synthesized for `code 500` and a 5-minute
TTL (the vendored revision A uses 15 minutes instead, see the
counterexample); and neither revision ever returns a nil body. -/
theorem claim5_transport_failure (env : DoEnv)
    (hnc : env.cached = none ∨ env.force = true ∨ env.noCache = true)
    (hp : ¬ env.now < env.panicUntil)
    (hr : 1 ≤ env.retries)
    (hfail : ∀ i, i < env.retries → attemptFails (env.attempts (i + 1)) = true) :
    (doB env).resp.httpCode = 504 ∧
    (doB env).resp.data = some (SynthesizeAPIError env.fmtTime env.now 500
      "APIProxy Error: Network error." (5 * 60)) ∧
    (doB env).err = some GoErr.network ∧
    (∀ env2 : DoEnv, (doA env2).resp.data ≠ none ∧ (doB env2).resp.data ≠ none) := by
  have herr := loopB_all_fail env hr hfail
  have hB := doCore_miss (5 * 60) loopB env hnc hp
  have hres := afterLoop_errored env (5 * 60) (loopB env) herr
  unfold doB
  rw [hB, hres]
  refine ⟨rfl, rfl, rfl, ?_⟩
  intro env2
  exact ⟨do_data_ne_none _ _ env2, do_data_ne_none _ _ env2⟩

/-- Witness for C5 at the all-transport-failure environment. -/
theorem claim5_transport_failure_witness :
    (doB envAllFail).resp.httpCode = 504 ∧
    (doA envPanic).resp.data ≠ none :=
  ⟨(claim5_transport_failure envAllFail (Or.inl rfl) (by decide) (by decide)
      (by decide)).1,
   ((claim5_transport_failure envAllFail (Or.inl rfl) (by decide) (by decide)
      (by decide)).2.2.2 envPanic).1⟩

/-- C5 counterexample: at the all-transport-failure environment the
vendored revision uses a 15-minute TTL, not the 5-minute one the claim
states; the two synthesized documents differ. -/
theorem claim5_counterexample :
    (doA envAllFail).resp.httpCode = 504 ∧
    (doA envAllFail).resp.data = some (SynthesizeAPIError demoFmt 100 500
      "APIProxy Error: Network error." (15 * 60)) ∧
    SynthesizeAPIError demoFmt 100 500 "APIProxy Error: Network error." (15 * 60) ≠
      SynthesizeAPIError demoFmt 100 500 "APIProxy Error: Network error." (5 * 60) := by
  refine ⟨?_, ?_, ?_⟩ <;> decide



/-- Any retry-loop step keeps `data` non-nil whenever `err` is clear. -/
theorem loopA_fold_data (env : DoEnv) :
    ∀ (l : List Nat) (st : LoopState),
      (st.errored = false → st.data ≠ none) →
      ((l.foldl (fun st i => stepAttempt env st (i + 1)) st).errored = false →
        (l.foldl (fun st i => stepAttempt env st (i + 1)) st).data ≠ none) := by
  intro l
  induction l with
  | nil => intro st h; simpa using h
  | cons a as ih =>
    intro st h
    simp only [List.foldl_cons]
    apply ih
    unfold stepAttempt
    cases env.attempts (a + 1) <;> simp

/-- After revision A of the loop, a clear `err` implies a non-nil
`data`. -/
theorem loopA_data (env : DoEnv) (h : (loopA env).errored = false) :
    (loopA env).data ≠ none := by
  refine loopA_fold_data env (List.range env.retries) (loopInit env) ?_ h
  intro h0
  unfold loopInit at h0 ⊢
  cases hc : env.cached <;> simp [hc] at h0 ⊢

/-- After revision B of the loop, a clear `err` implies a non-nil
`data`. -/
theorem loopBAux_data (env : DoEnv) :
    ∀ (fuel i : Nat) (st : LoopState),
      (st.errored = false → st.data ≠ none) →
      ((loopBAux env i fuel st).errored = false →
        (loopBAux env i fuel st).data ≠ none) := by
  intro fuel
  induction fuel with
  | zero => intro i st h; simpa [loopBAux] using h
  | succ n ih =>
    intro i st h
    unfold loopBAux
    cases hatt : env.attempts i <;> simp only [hatt]
    · apply ih
      simp
    · apply ih
      simp
    · simp

theorem loopB_data (env : DoEnv) (h : (loopB env).errored = false) :
    (loopB env).data ≠ none := by
  refine loopBAux_data env env.retries 1 (loopInit env) ?_ h
  intro h0
  unfold loopInit at h0 ⊢
  cases hc : env.cached <;> simp [hc] at h0 ⊢

/-- The post-loop stage on a successful parse: the invalidate bit is the
`403 or code in [100, 299]` test, and the HTTP status is the one read
from the upstream. -/
theorem afterLoop_parsed (env : DoEnv) (synthTTL : Nat) (st : LoopState)
    (e : APIError) (cu : Nat)
    (herr : st.errored = false)
    (hdata : st.data ≠ none)
    (hpar : env.parse (st.data.getD "") = ParseOutcome.parsed e cu) :
    (afterLoop env synthTTL st).resp.invalidate =
      decide (st.httpCode = 403 ∨ (100 ≤ e.errorCode ∧ e.errorCode ≤ 299)) ∧
    (afterLoop env synthTTL st).resp.httpCode = st.httpCode := by
  simp [afterLoop, herr, hpar, applyDefer, hdata]

/-- C7 (amended): after a POST whose body parses, both revisions set the
invalidate bit if and only if the HTTP status is 403 or the upstream
error code lies in [100, 299]; but a response served from the cache
always carries `invalidate = false`, whatever status was stored. -/
theorem claim7_invalidate (env : DoEnv) (e : APIError) (cu : Nat)
    (hnc : env.cached = none ∨ env.force = true ∨ env.noCache = true)
    (hp : ¬ env.now < env.panicUntil)
    (hA : (loopA env).errored = false)
    (hApar : env.parse ((loopA env).data.getD "") = ParseOutcome.parsed e cu)
    (hB : (loopB env).errored = false)
    (hBpar : env.parse ((loopB env).data.getD "") = ParseOutcome.parsed e cu) :
    ((doA env).resp.invalidate = true ↔
      ((doA env).resp.httpCode = 403 ∨ (100 ≤ e.errorCode ∧ e.errorCode ≤ 299))) ∧
    ((doB env).resp.invalidate = true ↔
      ((doB env).resp.httpCode = 403 ∨ (100 ≤ e.errorCode ∧ e.errorCode ≤ 299))) ∧
    (∀ (env2 : DoEnv) (c : Nat × String × Nat), env2.cached = some c →
      env2.force = false → env2.noCache = false →
      (doA env2).resp.invalidate = false ∧ (doB env2).resp.invalidate = false) := by
  have hdA := loopA_data env hA
  have hdB := loopB_data env hB
  have h1 := doCore_miss (15 * 60) loopA env hnc hp
  have h2 := doCore_miss (5 * 60) loopB env hnc hp
  have h3 := afterLoop_parsed env (15 * 60) (loopA env) e cu hA hdA hApar
  have h4 := afterLoop_parsed env (5 * 60) (loopB env) e cu hB hdB hBpar
  refine ⟨?_, ?_, ?_⟩
  · unfold doA
    rw [h1, h3.1, h3.2]
    simp
  · unfold doB
    rw [h2, h4.1, h4.2]
    simp
  · intro env2 c hc hf hn
    unfold doA doB doCore
    simp [hc, hf, hn]

/-- Witness for the amended C7: a parsed code-150 response satisfies the
equivalence, and a cached 403 entry is served with the bit clear. -/
theorem claim7_invalidate_witness :
    ((doA envParsed150).resp.invalidate = true ↔
      ((doA envParsed150).resp.httpCode = 403 ∨
        (100 ≤ ({ errorCode := 150, errorText := "e" } : APIError).errorCode ∧
          ({ errorCode := 150, errorText := "e" } : APIError).errorCode ≤ 299))) ∧
    (doA envCached403).resp.invalidate = false :=
  ⟨(claim7_invalidate envParsed150 { errorCode := 150, errorText := "e" } 500
      (Or.inl rfl) (by decide) (by decide) (by decide) (by decide) (by decide)).1,
   ((claim7_invalidate envParsed150 { errorCode := 150, errorText := "e" } 500
      (Or.inl rfl) (by decide) (by decide) (by decide) (by decide) (by decide)).2.2
      envCached403 (403, "<eveapi>denied</eveapi>", 500) rfl rfl rfl).1⟩

/-- C7 counterexample: a cache hit whose stored HTTP status is 403 is
returned with `invalidate = false`, refuting the claim that the
equivalence also covers responses served from the cache. -/
theorem claim7_counterexample :
    (doA envCached403).resp.httpCode = 403 ∧
    (doA envCached403).resp.invalidate = false ∧
    (doB envCached403).resp.httpCode = 403 ∧
    (doB envCached403).resp.invalidate = false := by
  refine ⟨?_, ?_, ?_, ?_⟩ <;> decide



/-! ## Theorems about the fingerprint -/

/-- When no two `Set` calls collide on a normalized key, building the
parameter map appends exactly the normalized pairs, in order. -/
theorem buildAux_eq :
    ∀ (l ps : List (GoStr × GoStr)),
      (ps.map Prod.fst ++ (l.map normPair).map Prod.fst).Nodup →
      l.foldl (fun ps p => setParam ps p.1 p.2) ps = ps ++ l.map normPair := by
  intro l
  induction l with
  | nil => intro ps _; simp
  | cons a as ih =>
    intro ps h
    have hcons : ((a :: as).map normPair).map Prod.fst =
        goKey a.1 :: (as.map normPair).map Prod.fst := by
      simp [normPair]
    rw [hcons] at h
    have hk : goKey a.1 ∉ ps.map Prod.fst := by
      intro hmem
      exact List.disjoint_of_nodup_append h hmem (by simp)
    have hfil : ps.filter (fun q => q.1 ≠ goKey a.1) = ps := by
      rw [List.filter_eq_self]
      intro q hq
      simp only [ne_eq, decide_eq_true_eq]
      intro heq
      exact hk (heq ▸ List.mem_map_of_mem Prod.fst hq)
    have hstep : setParam ps a.1 a.2 = ps ++ [(goKey a.1, a.2)] := by
      unfold setParam mapSet
      rw [hfil]
    have hnd2 : ((ps ++ [(goKey a.1, a.2)]).map Prod.fst ++
        (as.map normPair).map Prod.fst).Nodup := by
      simpa using h
    rw [List.foldl_cons, hstep, ih _ hnd2]
    simp [normPair]

/-- Map lookup only depends on the key-to-value mapping: permuting an
assoc list with distinct keys leaves every lookup unchanged. -/
theorem lookupKey_perm :
    ∀ {ps₁ ps₂ : List (GoStr × GoStr)}, ps₁.Perm ps₂ →
      (ps₁.map Prod.fst).Nodup → ∀ k, lookupKey ps₁ k = lookupKey ps₂ k := by
  intro ps₁ ps₂ h
  induction h with
  | nil => intro _ _; rfl
  | cons a h ih =>
    intro hnd k
    simp only [lookupKey]
    split
    · rfl
    · exact ih ((List.nodup_cons.mp (by simpa using hnd)).2) k
  | swap x y l =>
    intro hnd k
    have hxy : y.1 ≠ x.1 := by
      simp only [List.map_cons, List.nodup_cons, List.mem_cons] at hnd
      exact fun heq => hnd.1 (Or.inl heq)
    by_cases h1 : y.1 = k <;> by_cases h2 : x.1 = k <;>
      simp [lookupKey, h1, h2]
    exact absurd (h1.trans h2.symm) hxy
  | trans h1 h2 ih1 ih2 =>
    intro hnd k
    rw [ih1 hnd k, ih2 ((h1.map Prod.fst).nodup_iff.mp hnd) k]

/-- Sorting by the byte order is a function of the multiset of keys. -/
theorem sortedKeys_eq {l₁ l₂ : List GoStr} (h : l₁.Perm l₂) :
    List.insertionSort (fun a b : GoStr => a ≤ b) l₁ =
      List.insertionSort (fun a b : GoStr => a ≤ b) l₂ :=
  List.eq_of_perm_of_sorted
    (((List.perm_insertionSort _ l₁).trans h).trans
      (List.perm_insertionSort _ l₂).symm)
    (List.sorted_insertionSort _ l₁)
    (List.sorted_insertionSort _ l₂)

theorem hexOfBytes_length : ∀ bs : List Nat, (hexOfBytes bs).length = 2 * bs.length := by
  intro bs
  induction bs with
  | nil => rfl
  | cons b bs ih =>
    simp [hexOfBytes, byteToHex, ih]
    omega

/-- C6: requests whose `Set` sequences produce the same set of
normalized `(key, value)` pairs (the same parameters, in any insertion
order, with keys differing only in case or surrounding whitespace) get
the same fingerprint; the fingerprint is 40 hex characters; and changing
only the case of a parameter value changes the digested byte stream. -/
theorem claim6_fingerprint (digest : GoStr → List Nat)
    (hlen : ∀ s, (digest s).length = 20)
    (url : GoStr) (l₁ l₂ : List (GoStr × GoStr))
    (hperm : (l₁.map normPair).Perm (l₂.map normPair))
    (hnd : ((l₁.map normPair).map Prod.fst).Nodup) :
    cacheTag digest (buildRequest url l₁) = cacheTag digest (buildRequest url l₂) ∧
    (cacheTag digest (buildRequest url l₁)).length = 40 ∧
    cacheTagInput (buildRequest "u".data [("k".data, "Value".data)]) ≠
      cacheTagInput (buildRequest "u".data [("k".data, "value".data)]) := by
  have hb₁ : (buildRequest url l₁).params = l₁.map normPair := by
    unfold buildRequest
    simpa using buildAux_eq l₁ [] (by simpa using hnd)
  have hb₂ : (buildRequest url l₂).params = l₂.map normPair := by
    unfold buildRequest
    simpa using buildAux_eq l₂ []
      (by simpa using (hperm.map Prod.fst).nodup_iff.mp hnd)
  have hinput : cacheTagInput (buildRequest url l₁) =
      cacheTagInput (buildRequest url l₂) := by
    unfold cacheTagInput
    rw [hb₁, hb₂, sortedKeys_eq (hperm.map Prod.fst)]
    have hfun : (fun k => k ++ ": ".data ++ (lookupKey (l₁.map normPair) k).getD []
          ++ "\n".data) =
        (fun k => k ++ ": ".data ++ (lookupKey (l₂.map normPair) k).getD []
          ++ "\n".data) := by
      funext k
      rw [lookupKey_perm hperm hnd k]
    rw [hfun]
    simp [buildRequest]
  refine ⟨?_, ?_, ?_⟩
  · unfold cacheTag
    rw [hinput]
  · unfold cacheTag
    rw [hexOfBytes_length, hlen]
  · decide

/-- Witness for C6: inserting `("A ", "1")` then `("b", "2")` equals
inserting `("b", "2")` then `("a", "1")`, and the digest renders as 40
characters. -/
theorem claim6_fingerprint_witness :
    cacheTag demoDigest
        (buildRequest "p".data [("A ".data, "1".data), ("b".data, "2".data)]) =
      cacheTag demoDigest
        (buildRequest "p".data [("b".data, "2".data), ("a".data, "1".data)]) ∧
    (cacheTag demoDigest
        (buildRequest "p".data [("A ".data, "1".data), ("b".data, "2".data)])).length = 40 :=
  ⟨(claim6_fingerprint demoDigest (fun s => by simp [demoDigest]) "p".data
      [("A ".data, "1".data), ("b".data, "2".data)]
      [("b".data, "2".data), ("a".data, "1".data)] (by decide) (by decide)).1,
   (claim6_fingerprint demoDigest (fun s => by simp [demoDigest]) "p".data
      [("A ".data, "1".data), ("b".data, "2".data)]
      [("b".data, "2".data), ("a".data, "1".data)] (by decide) (by decide)).2.1⟩



/-! ## Theorems about the handlers -/

/-- Filtering an assoc list cannot create a key that was absent. -/
theorem lookupKey_filter_none (ps : List (GoStr × GoStr))
    (p : GoStr × GoStr → Bool) (k : GoStr)
    (h : lookupKey ps k = none) : lookupKey (ps.filter p) k = none := by
  induction ps with
  | nil => simp [lookupKey]
  | cons q qs ih =>
    simp only [lookupKey] at h
    split at h
    · exact absurd h (by simp)
    · rename_i hq
      by_cases hp : p q
      · simpa [List.filter_cons, hp, lookupKey, hq] using ih h
      · simpa [List.filter_cons, hp] using ih h

/-- Deletion removes the key. -/
theorem lookupKey_mapDelete_self (ps : List (GoStr × GoStr)) (k : GoStr) :
    lookupKey (mapDelete ps k) k = none := by
  induction ps with
  | nil => rfl
  | cons q qs ih =>
    by_cases hq : q.1 = k
    · simpa [mapDelete, List.filter_cons, hq] using ih
    · simpa [mapDelete, List.filter_cons, hq, lookupKey] using ih

/-- Lookup walks through an absent prefix. -/
theorem lookupKey_append_none (l₁ l₂ : List (GoStr × GoStr)) (k : GoStr)
    (h : lookupKey l₁ k = none) : lookupKey (l₁ ++ l₂) k = lookupKey l₂ k := by
  induction l₁ with
  | nil => simp
  | cons q qs ih =>
    simp only [lookupKey] at h
    split at h
    · exact absurd h (by simp)
    · rename_i hq
      simpa [lookupKey, hq] using ih h

/-- Setting one key does not create another. -/
theorem lookupKey_mapSet_none (ps : List (GoStr × GoStr)) (k v k0 : GoStr)
    (hne : k ≠ k0) (h : lookupKey ps k0 = none) :
    lookupKey (mapSet ps k v) k0 = none := by
  unfold mapSet
  rw [lookupKey_append_none _ _ _ (lookupKey_filter_none ps _ k0 h)]
  simp [lookupKey, hne]

/-- Every call made by `isValidIDList` uses the probe parameters: the
base map with `ids` set to some joined id list. -/
theorem isValidIDList_calls (api : ApiOracle) (params : List (GoStr × GoStr))
    (ids : List GoStr) (cnt : Nat) :
    ∀ c ∈ (isValidIDList api params ids cnt).calls,
      ∃ v, c = mapSet params "ids".data v := by
  intro c hc
  unfold isValidIDList at hc
  split at hc
  · simp at hc
  · split at hc
    · simp at hc
    · simp only [apply_ite ProbeOut.calls, ite_self] at hc
      exact ⟨_, by simpa using hc⟩

set_option maxHeartbeats 1600000 in
/-- Every call made by the first-revision recursion sets `ids` on the
base map and touches nothing else. -/
theorem findValidIDs1_calls (api : ApiOracle) :
    ∀ (fuel : Nat) (params : List (GoStr × GoStr)) (ids : List GoStr) (cnt : Nat),
      ∀ c ∈ (findValidIDs1 api params fuel ids cnt).calls,
        ∃ v, c = mapSet params "ids".data v := by
  intro fuel
  induction fuel with
  | zero =>
    intro params ids cnt c hc
    simp [findValidIDs1] at hc
  | succ n ih =>
    intro params ids cnt c hc
    have hprobe : ∀ (ids2 : List GoStr) (cnt2 : Nat),
        ∀ c2 ∈ (isValidIDList api params ids2 cnt2).calls,
          ∃ v, c2 = mapSet params "ids".data v :=
      fun ids2 cnt2 c2 h2 => isValidIDList_calls api params ids2 cnt2 c2 h2
    simp only [findValidIDs1] at hc
    simp only [apply_ite FindOut.ids, apply_ite FindOut.err, apply_ite FindOut.cnt,
      apply_ite FindOut.calls, apply_ite FindOut.fault] at hc
    revert hc
    set L := List.take (ids.length / 2) ids with hL
    set R := List.drop (ids.length / 2) ids with hR
    set pl := isValidIDList api params L cnt with hpl
    set fL := findValidIDs1 api params n L pl.cnt with hfL
    set cntL := if pl.valid then pl.cnt else if 1 < L.length then fL.cnt else pl.cnt
      with hcntL
    set pr := isValidIDList api params R cntL with hpr
    set fR := findValidIDs1 api params n R pr.cnt with hfR
    intro hc
    have Hpl : ∀ c2 ∈ pl.calls, ∃ v, c2 = mapSet params "ids".data v := by
      rw [hpl] ; exact hprobe _ _
    have HfL : ∀ c2 ∈ fL.calls, ∃ v, c2 = mapSet params "ids".data v := by
      rw [hfL] ; exact ih _ _ _
    have Hpr : ∀ c2 ∈ pr.calls, ∃ v, c2 = mapSet params "ids".data v := by
      rw [hpr] ; exact hprobe _ _
    have HfR : ∀ c2 ∈ fR.calls, ∃ v, c2 = mapSet params "ids".data v := by
      rw [hfR] ; exact ih _ _ _
    repeat' split at hc
    all_goals
      try simp only [List.mem_append, List.not_mem_nil, or_false, false_or] at hc
    all_goals (
      repeat (rcases hc with hc | hc))
    all_goals (
      first
        | exact absurd hc (List.not_mem_nil c)
        | exact Hpl _ hc
        | exact HfL _ hc
        | exact Hpr _ hc
        | exact HfR _ hc)

/-- C8 (amended): in the first revision the fixer runs only when `fix`
is present, `fix` is removed before every upstream call, and the size
and error-code guards return the first response unchanged; the second
revision keeps the guards, but its fixer is unconditionally enabled and
`fix` is never removed (see the counterexample). -/
theorem claim8_fix_gate (api : ApiOracle) (params : List (GoStr × GoStr)) :
    (lookupKey params "fix".data = none →
      idsListHandler1 api params = (some (api params).1, [params])) ∧
    (∀ c ∈ (idsListHandler1 api params).2, lookupKey c "fix".data = none) ∧
    (lookupKey params "fix".data ≠ none →
      ((handlerIDs (mapDelete params "fix".data)).length = 0 ∨
       (handlerIDs (mapDelete params "fix".data)).length = 1 ∨
       250 < (handlerIDs (mapDelete params "fix".data)).length ∨
       (api (mapDelete params "fix".data)).1.errorCode ≠ 135) →
      (idsListHandler1 api params).1 = some (api (mapDelete params "fix".data)).1) ∧
    (((handlerIDs params).length = 0 ∨ (handlerIDs params).length = 1 ∨
      250 < (handlerIDs params).length ∨ (api params).1.errorCode ≠ 135) →
      (idsListHandler2 api params).1 = some (api params).1) := by
  refine ⟨?_, ?_, ?_, ?_⟩
  · intro h
    simp [idsListHandler1, h]
  · intro c hc
    by_cases hfp : (lookupKey params "fix".data).isSome
    · have hfix1 : lookupKey (mapDelete params "fix".data) "fix".data = none :=
        lookupKey_mapDelete_self params "fix".data
      have hfix2 : lookupKey (mapDelete (mapDelete params "fix".data) "ids".data)
          "fix".data = none :=
        lookupKey_filter_none _ _ _ hfix1
      unfold idsListHandler1 at hc
      simp only [hfp, not_true, if_true, if_false, ite_true, ite_false,
        Bool.false_eq_true, if_neg, not_false_iff] at hc
      repeat' split at hc
      all_goals
        try simp only [List.cons_append, List.nil_append, List.mem_append,
          List.mem_cons, List.mem_singleton, List.not_mem_nil, or_false] at hc
      all_goals (
        first
          | (rcases hc with rfl | hc | hc)
          | (rcases hc with rfl | hc))
      all_goals (
        first
          | exact hfix1
          | exact lookupKey_mapSet_none _ _ _ _ (by decide) hfix2
          | (subst hc ;
             exact lookupKey_mapSet_none _ _ _ _ (by decide) hfix2)
          | (obtain ⟨v, rfl⟩ := findValidIDs1_calls api _ _ _ _ _ hc ;
             exact lookupKey_mapSet_none _ _ _ _ (by decide) hfix2))
    · have hnone : lookupKey params "fix".data = none := by
        cases h : lookupKey params "fix".data
        · rfl
        · rw [h] at hfp; simp at hfp
      unfold idsListHandler1 at hc
      simp only [hnone] at hc
      simp at hc
      subst hc
      exact hnone
  · intro hfix hguard
    have hfp : (lookupKey params "fix".data).isSome = true := by
      cases h : lookupKey params "fix".data
      · exact absurd h hfix
      · rfl
    unfold idsListHandler1
    simp only [hfp, not_true, if_true, ite_true, ite_false, Bool.false_eq_true,
      not_false_iff, if_false]
    repeat' split
    all_goals
      first
        | rfl
        | simp_all [List.length_eq_zero]
  · intro hguard
    unfold idsListHandler2
    by_cases h1 : handlerIDs params = [] ∨ (handlerIDs params).length = 1 ∨
        250 < (handlerIDs params).length
    · simp [h1]
    · have h4 : ¬(api params).1.errorCode = 135 := by
        rcases hguard with h | h | h | h
        · exact absurd (Or.inl (List.length_eq_zero.mp h)) h1
        · exact absurd (Or.inr (Or.inl h)) h1
        · exact absurd (Or.inr (Or.inr h)) h1
        · exact h
      simp [h1, h4]

/-- Witness for C8: the passthrough when `fix` is absent, a probe call
without `fix`, and the guards in both revisions, all at concrete
inputs. -/
theorem claim8_fix_gate_witness :
    idsListHandler1 apiAll135 paramsNoFix = (some (apiAll135 paramsNoFix).1, [paramsNoFix]) ∧
    lookupKey (mapDelete paramsWithFix "fix".data) "fix".data = none ∧
    (idsListHandler1 apiAll0 paramsWithFix).1 =
      some (apiAll0 (mapDelete paramsWithFix "fix".data)).1 ∧
    (idsListHandler2 apiAll0 paramsNoFix).1 = some (apiAll0 paramsNoFix).1 :=
  ⟨(claim8_fix_gate apiAll135 paramsNoFix).1 (by decide),
   (claim8_fix_gate apiAll135 paramsWithFix).2.1 _ (by decide),
   (claim8_fix_gate apiAll0 paramsWithFix).2.2.1 (by decide)
     (Or.inr (Or.inr (Or.inr (by decide)))),
   (claim8_fix_gate apiAll0 paramsNoFix).2.2.2
     (Or.inr (Or.inr (Or.inr (by decide))))⟩

/-- C8 counterexample: in the second revision the fixer runs although
`fix` is absent: an all-135 upstream makes it probe three times, every
probe subset comes back invalid, and the handler then faults at
`validIDs[0]` on the empty repair subset (result `none`) instead of
returning the first response as the first revision would; and when
`fix` is present it is passed through to the upstream verbatim. -/
theorem claim8_counterexample :
    lookupKey paramsNoFix "fix".data = none ∧
    (idsListHandler2 apiAll135 paramsNoFix).1 = none ∧
    (idsListHandler2 apiAll135 paramsNoFix).2.length = 3 ∧
    lookupKey ((idsListHandler2 apiAll135 paramsWithFix).2.headD [])
      "fix".data = some "yes".data := by
  refine ⟨?_, ?_, ?_, ?_⟩ <;> decide

/-- C9: evaluation of both revisions of `findValidIDs` at a four-id
input whose left half recursion hits a non-135 error (code 320) on the
probe of `1`.  The error is dropped by the `rightErr` test that shadows
`leftErr`, and the partial subset `3,4` is returned with no error,
instead of aborting the repair. -/
theorem claim9_left_error_swallowed :
    (isValidIDList apiC9 [] ["1".data] 1).err =
      some (FixErr.api 320 "backend".data) ∧
    (findValidIDs1 apiC9 [] 4 ["1".data, "2".data, "3".data, "4".data] 0).err = none ∧
    (findValidIDs1 apiC9 [] 4 ["1".data, "2".data, "3".data, "4".data] 0).ids =
      ["3".data, "4".data] ∧
    (findValidIDs2 apiC9 [] 4 ["1".data, "2".data, "3".data, "4".data] 0).err = none ∧
    (findValidIDs2 apiC9 [] 4 ["1".data, "2".data, "3".data, "4".data] 0).ids =
      ["3".data, "4".data] := by
  refine ⟨?_, ?_, ?_, ?_, ?_⟩ <;> decide



/-! ## Theorems about the loggers -/

/-- C10: with censorship enabled, `logRequest` faults on a `vcode`
value shorter than 8 bytes (the unguarded `params[k][0:8]` slice),
whereas the guarded slice in `APIReq` completes for every value, and
`logRequest` itself completes whenever the value has at least 8
bytes. -/
theorem claim10_vcode_censor_fault :
    logRequestParamVal true "vcode".data "abc".data = none ∧
    (∀ (censorLog : Bool) (k v : GoStr),
      (apiReqParamVal censorLog k v).isSome = true) ∧
    (∀ (censorLog : Bool) (k v : GoStr), 8 ≤ v.length →
      (logRequestParamVal censorLog k v).isSome = true) := by
  refine ⟨by decide, ?_, ?_⟩
  · intro c k v
    unfold apiReqParamVal
    split
    · rename_i h
      have hs : goStringSlice v 0 8 = some ((v.drop 0).take (8 - 0)) := by
        unfold goStringSlice
        rw [if_pos]
        exact ⟨by omega, by omega⟩
      rw [hs]
      simp
    · simp
  · intro c k v h
    unfold logRequestParamVal
    split
    · have hs : goStringSlice v 0 8 = some ((v.drop 0).take (8 - 0)) := by
        unfold goStringSlice
        rw [if_pos]
        exact ⟨by omega, by omega⟩
      rw [hs]
      simp
    · simp

/-- Witness for C10 at concrete values: the guarded logger accepts a
3-byte vcode, and the unguarded one accepts an 8-byte vcode. -/
theorem claim10_vcode_censor_fault_witness :
    (apiReqParamVal true "vcode".data "abc".data).isSome = true ∧
    (logRequestParamVal true "vcode".data "abcdefgh".data).isSome = true :=
  ⟨claim10_vcode_censor_fault.2.1 true "vcode".data "abc".data,
   claim10_vcode_censor_fault.2.2 true "vcode".data "abcdefgh".data (by decide)⟩


end EveApiProxy
